import Mathlib

/-
Verification of src/bin/print_idx_file.py (euzu/m3u-filter).

The script reads a binary index file in 8-byte chunks; each complete chunk
decodes as two little-endian unsigned 32-bit integers which are printed as
`first : last`.  A shorter trailing chunk is printed as an
`Incomplete chunk: <bytes>` diagnostic.  A missing file is reported by the
FileNotFoundError handler.  The `__main__` block checks the argument count,
but line 35 evaluates `os.path.basename` although `os` is never imported,
so that branch raises an uncaught NameError (CPython then exits with
status 1 after printing a traceback, before `print("Usage: ...")` runs).

Bytes are modelled as natural numbers (file contents are lists of values
below 256; the decoder is total so no range hypothesis is baked in).  The
file system is a partial map from path strings to byte lists; `none` means
opening raises FileNotFoundError.  Because `open` can also raise OSErrors
that the script does not catch (PermissionError, IsADirectoryError, ...),
a second model (`FsOutcome`, `scriptMainFull`) represents those outcomes
explicitly; the Option-based model is its restriction to readable and
missing files (`scriptMainFull_agrees_scriptMain`).  Python's `file.read(8)` on a regular
binary file returns the next `min(8, remaining)` bytes and advances the
file position by that many bytes; the loop is modelled with an explicit
cursor and a fuel bound, so that non-termination of the while-loop is
representable (`halted = false` means the fuel ran out before `break`).
All `print` calls write to sys.stdout; they are collected in order.
-/

namespace PrintIdxFile

/-- One line of output produced by the script.  `record first last` stands
for the line `{first} : {last}` printed at line 26 of the source,
`incomplete bytes` for the `Incomplete chunk: <bytes>` diagnostic of
line 28, and `fileNotFound path` for the handler message of line 30. -/
inductive Out where
  | record (first last : Nat)
  | incomplete (bytes : List Nat)
  | fileNotFound (path : String)
  deriving DecidableEq, Repr

/-- Little-endian value of a byte list: `struct.unpack` with format `<I`
applied to 4 bytes (first byte least significant). -/
def leVal (bs : List Nat) : Nat :=
  bs.foldr (fun b acc => b + 256 * acc) 0

/-- Little-endian 4-byte encoding of an unsigned 32-bit value
(`struct.pack` with format `<I`); used to state the round-trip claim. -/
def u32le (v : Nat) : List Nat :=
  [v % 256, v / 256 % 256, v / 65536 % 256, v / 16777216 % 256]

/-- Encode a sequence of (first, last) pairs as consecutive 8-byte
little-endian records (the inverse direction of the reader). -/
def encodePairs (pairs : List (Nat × Nat)) : List Nat :=
  pairs.flatMap fun p => u32le p.1 ++ u32le p.2

/-- Result of running the while-loop of `print_u32_values` with a given
amount of fuel: the lines printed, and whether the loop reached its
`break` (`halted = false` means the fuel was exhausted first). -/
structure LoopResult where
  lines : List Out
  halted : Bool
  deriving DecidableEq, Repr

/-- The while-loop of `print_u32_values` (source lines 19-28).  `pos` is
the file position; `chunk = file.read(8)` returns the next
`min(8, contents.length - pos)` bytes and advances the position by
`chunk.length`.  An empty chunk breaks the loop; a full 8-byte chunk is
decoded by `struct.unpack("<II", chunk)` and printed; a shorter chunk is
printed as the incomplete-chunk diagnostic and the loop continues. -/
def loopRead (contents : List Nat) : Nat → Nat → LoopResult
  | _, 0 => ⟨[], false⟩
  | pos, fuel + 1 =>
    let chunk := (contents.drop pos).take 8
    if chunk = [] then ⟨[], true⟩
    else
      let line :=
        if chunk.length = 8 then
          Out.record (leVal (chunk.take 4)) (leVal (chunk.drop 4))
        else
          Out.incomplete chunk
      let rest := loopRead contents (pos + chunk.length) fuel
      ⟨line :: rest.lines, rest.halted⟩

/-- The sequence of lines the loop produces on a byte list, written as a
direct recursion on the remaining bytes; proved equal to the output of
`loopRead` (with sufficient fuel) below. -/
def decodeRecords (bs : List Nat) : List Out :=
  if bs = [] then []
  else
    let chunk := bs.take 8
    if chunk.length = 8 then
      Out.record (leVal (chunk.take 4)) (leVal (chunk.drop 4))
        :: decodeRecords (bs.drop 8)
    else [Out.incomplete chunk]
termination_by bs.length
decreasing_by
  simp only [List.length_drop]
  have hlen : bs.length ≠ 0 := by
    intro h0
    exact (by assumption : ¬ bs = []) (List.eq_nil_of_length_eq_zero h0)
  omega

/-- The k-th record line as the spec states it: the little-endian value
of bytes `[8k, 8k+4)` then of bytes `[8k+4, 8k+8)`. -/
def specRecordLine (bs : List Nat) (k : Nat) : Out :=
  Out.record (leVal ((bs.drop (8 * k)).take 4))
    (leVal ((bs.drop (8 * k + 4)).take 4))

/-- The output as the spec states it: the decodings of the first
`length / 8` complete records in file order, followed by a single
incomplete-chunk diagnostic exactly when the length is not a multiple
of 8. -/
def specLines (bs : List Nat) : List Out :=
  (List.range (bs.length / 8)).map (specRecordLine bs)
    ++ (if bs.length % 8 = 0 then []
        else [Out.incomplete (bs.drop (8 * (bs.length / 8)))])

/-- Result of one run of the script: the lines printed to stdout, the
process exit status, the name of an uncaught exception if one escaped,
and whether opening the file was attempted. -/
structure RunResult where
  stdout : List Out
  exitCode : Nat
  uncaught : Option String
  fileAccessed : Bool
  deriving Repr

/-- Function `print_u32_values` (source lines 16-30): open the file,
run the read loop, and handle FileNotFoundError by printing a message
naming the path.  The fuel `contents.length + 1` is sufficient for the
loop to reach its `break` (theorem `loopRead_halts` below). -/
def print_u32_values (path : String) (fs : String → Option (List Nat)) :
    List Out :=
  match fs path with
  | none => [Out.fileNotFound path]
  | some contents => (loopRead contents 0 (contents.length + 1)).lines

/-- The `__main__` block (source lines 33-40).  `args` is `sys.argv`
without the leading script name, so `len(sys.argv) != 2` is
`args.length ≠ 1`.  In that branch line 35 evaluates
`os.path.basename(sys.argv[0])`, but the script never imports `os`, so a
NameError is raised before the usage message is printed; CPython prints a
traceback and exits with status 1, and no file is touched.  With exactly
one argument, `print_u32_values` runs and the script falls off the end,
exiting with status 0 regardless of what the function printed.

This model covers the two open outcomes of the Option-based file
system: a readable regular file (`some contents`) and a missing path
(`none`, the FileNotFoundError that line 29 catches).  An `open` that
raises any other OSError — PermissionError, IsADirectoryError, ... — is
outside this type; `scriptMainFull` below models those uncaught paths,
and `scriptMainFull_agrees_scriptMain` proves the two models agree on
the outcomes represented here. -/
def scriptMain (args : List String) (fs : String → Option (List Nat)) :
    RunResult :=
  match args with
  | [path] =>
    { stdout := print_u32_values path fs
      exitCode := 0
      uncaught := none
      fileAccessed := true }
  | _ =>
    { stdout := []
      exitCode := 1
      uncaught := some "NameError"
      fileAccessed := false }

/-- Outcome of `open(file_path, "rb")` for a path: a readable regular
file with the given bytes, a missing path (`open` raises
FileNotFoundError, the one exception line 29 catches), or any other
OSError raised by `open` — PermissionError, IsADirectoryError, ... —
identified by its Python exception name, which the
`except FileNotFoundError` clause does not catch. -/
inductive FsOutcome where
  | bytes (contents : List Nat)
  | notFound
  | osError (exc : String)
  deriving DecidableEq, Repr

/-- Function `print_u32_values` over the full outcome model: the pair is
(lines printed, exception escaping the function, if any).  A readable
file runs the loop; a missing file is reported by the handler of
lines 29-30; any other OSError from `open` propagates out of the
function uncaught, with nothing printed. -/
def print_u32_values_full (path : String) (fs : String → FsOutcome) :
    List Out × Option String :=
  match fs path with
  | FsOutcome.bytes contents =>
      ((loopRead contents 0 (contents.length + 1)).lines, none)
  | FsOutcome.notFound => ([Out.fileNotFound path], none)
  | FsOutcome.osError exc => ([], some exc)

/-- The `__main__` block over the full outcome model.  A wrong argument
count raises the uncaught NameError of line 35 as in `scriptMain`; with
one argument the script exits 0 when `print_u32_values` returns
normally, and 1 (CPython's status for an uncaught exception) when an
exception escaped it. -/
def scriptMainFull (args : List String) (fs : String → FsOutcome) :
    RunResult :=
  match args with
  | [path] =>
    match print_u32_values_full path fs with
    | (out, none) =>
      { stdout := out, exitCode := 0, uncaught := none, fileAccessed := true }
    | (out, some exc) =>
      { stdout := out, exitCode := 1, uncaught := some exc,
        fileAccessed := true }
  | _ =>
    { stdout := [], exitCode := 1, uncaught := some "NameError",
      fileAccessed := false }

/-- The decoder yields no line on an empty byte list. -/
theorem decodeRecords_nil : decodeRecords [] = [] := by
  rw [decodeRecords]
  simp

/-- With fuel exceeding the number of remaining bytes, the loop reaches
its `break` and its output is `decodeRecords` of the bytes from the
current position on: each `read(8)` advances the position by the number
of bytes it returned, so a partial chunk is followed by an empty read. -/
theorem loopRead_eq_decode (contents : List Nat) :
    ∀ fuel pos, contents.length - pos < fuel →
      loopRead contents pos fuel =
        ⟨decodeRecords (contents.drop pos), true⟩ := by
  intro fuel
  induction fuel with
  | zero => intro pos h; omega
  | succ f ih =>
    intro pos h
    have hdroplen : (contents.drop pos).length = contents.length - pos :=
      List.length_drop pos contents
    by_cases hnil : (contents.drop pos).take 8 = []
    · have hdrop : contents.drop pos = [] := by
        rcases List.take_eq_nil_iff.mp hnil with h8 | hd
        · exact absurd h8 (by omega)
        · exact hd
      rw [loopRead]
      simp [hnil, decodeRecords, hdrop]
    · have hne : contents.drop pos ≠ [] := by
        intro hd; exact hnil (by simp [hd])
      have hpos : 0 < contents.length - pos := by
        have := List.length_pos.mpr hne
        omega
      by_cases h8 : ((contents.drop pos).take 8).length = 8
      · have hlen8 : 8 ≤ contents.length - pos := by
          rw [List.length_take, hdroplen] at h8
          omega
        rw [loopRead]
        simp only [hnil, if_false, h8, if_true]
        rw [ih (pos + 8) (by omega)]
        conv_rhs => rw [decodeRecords]
        simp only [hne, if_false, h8, if_true]
        have hdd : (contents.drop pos).drop 8 = contents.drop (pos + 8) := by
          rw [List.drop_drop]
        rw [hdd]
      · have hlt8 : contents.length - pos < 8 := by
          rw [List.length_take, hdroplen] at h8
          omega
        have htake : (contents.drop pos).take 8 = contents.drop pos :=
          List.take_of_length_le (by omega)
        rw [loopRead]
        simp only [hnil, if_false, h8, ite_false]
        rw [htake, hdroplen]
        have hposadv : pos + (contents.length - pos) = contents.length := by
          omega
        rw [hposadv, ih contents.length (by omega)]
        rw [List.drop_length, decodeRecords_nil]
        conv_rhs => rw [decodeRecords]
        simp only [hne, if_false, htake]
        rw [if_neg]
        rw [hdroplen]
        omega

/-- Shifting the record index by one record is dropping 8 bytes. -/
theorem specRecordLine_drop8 (bs : List Nat) (k : Nat) :
    specRecordLine (bs.drop 8) k = specRecordLine bs (k + 1) := by
  unfold specRecordLine
  rw [List.drop_drop, List.drop_drop]
  have e1 : 8 + 8 * k = 8 * (k + 1) := by ring
  have e2 : 8 + (8 * k + 4) = 8 * (k + 1) + 4 := by ring
  rw [e1, e2]

/-- Peeling one complete record off the front of the spec formula. -/
theorem specLines_cons (bs : List Nat) (h8 : 8 ≤ bs.length) :
    specLines bs = specRecordLine bs 0 :: specLines (bs.drop 8) := by
  have hlen : (bs.drop 8).length = bs.length - 8 := List.length_drop 8 bs
  have hn : bs.length = (bs.length - 8) + 8 := by omega
  have hdiv : bs.length / 8 = (bs.length - 8) / 8 + 1 := by
    conv_lhs => rw [hn]
    rw [Nat.add_div_right _ (by norm_num)]
  have hmod : bs.length % 8 = (bs.length - 8) % 8 := by
    conv_lhs => rw [hn]
    rw [Nat.add_mod_right]
  have hmap : List.map (specRecordLine (bs.drop 8))
      (List.range ((bs.length - 8) / 8)) =
      List.map (specRecordLine bs ∘ Nat.succ)
        (List.range ((bs.length - 8) / 8)) := by
    apply List.map_congr_left
    intro k hk
    simp only [Function.comp_apply, Nat.succ_eq_add_one]
    exact specRecordLine_drop8 bs k
  conv_lhs => rw [specLines]
  conv_rhs => rw [specLines]
  rw [hlen, hdiv, hmod, List.range_succ_eq_map, List.map_cons, List.map_map,
    List.cons_append, hmap, List.drop_drop]
  have e3 : 8 + 8 * ((bs.length - 8) / 8) = 8 * ((bs.length - 8) / 8 + 1) := by
    ring
  rw [e3]

/-- The loop output formula `decodeRecords` computes exactly the spec
formula `specLines`: complete records decoded in order, then one
incomplete-chunk diagnostic iff the length is not a multiple of 8. -/
theorem decodeRecords_eq_specLines :
    ∀ (n : Nat) (bs : List Nat), bs.length ≤ n →
      decodeRecords bs = specLines bs := by
  intro n
  induction n with
  | zero =>
    intro bs hb
    have : bs = [] := List.eq_nil_of_length_eq_zero (by omega)
    subst this
    rw [decodeRecords_nil]
    simp [specLines]
  | succ n ih =>
    intro bs hb
    by_cases hnil : bs = []
    · subst hnil
      rw [decodeRecords_nil]
      simp [specLines]
    · by_cases h8 : 8 ≤ bs.length
      · have hchunk : (bs.take 8).length = 8 := by
          rw [List.length_take]
          omega
        rw [decodeRecords]
        simp only [hnil, if_false, hchunk, if_true]
        rw [ih (bs.drop 8) (by rw [List.length_drop]; omega)]
        rw [specLines_cons bs h8]
        have ht4 : (bs.take 8).take 4 = bs.take 4 := by
          rw [List.take_take]
          norm_num
        have hd4 : (bs.take 8).drop 4 = (bs.drop 4).take 4 := by
          rw [List.drop_take]
        rw [ht4, hd4]
        unfold specRecordLine
        rw [Nat.mul_zero, List.drop_zero, Nat.zero_add]
      · have hlt : bs.length < 8 := by omega
        have hpos : 0 < bs.length := List.length_pos.mpr hnil
        have htake : bs.take 8 = bs := List.take_of_length_le (by omega)
        have hchunk : ¬ (bs.take 8).length = 8 := by
          rw [htake]
          omega
        rw [decodeRecords]
        simp only [hnil, if_false, hchunk, ite_false, htake]
        unfold specLines
        rw [Nat.div_eq_of_lt hlt, Nat.mod_eq_of_lt hlt]
        simp only [Nat.mul_zero, List.range_zero, List.map_nil,
          List.nil_append, List.drop_zero]
        have hne0 : ¬ bs.length = 0 := by omega
        rw [if_neg hne0]
        have hne8 : ¬ bs.length = 8 := by omega
        rw [if_neg hne8]

/-- Running `print_u32_values` on an existing file prints exactly the
spec formula for its bytes. -/
theorem print_u32_values_spec (path : String)
    (fs : String → Option (List Nat)) (contents : List Nat)
    (h : fs path = some contents) :
    print_u32_values path fs = specLines contents := by
  unfold print_u32_values
  rw [h]
  show (loopRead contents 0 (contents.length + 1)).lines = specLines contents
  rw [loopRead_eq_decode contents (contents.length + 1) 0 (by omega),
    List.drop_zero]
  exact decodeRecords_eq_specLines contents.length contents (le_refl _)

/-- On the outcomes the Option-based file system represents — a readable
file or a missing path — the full model agrees with `scriptMain`, so the
claims stated over `scriptMain` under hypotheses on the open outcome
describe the full model as well. -/
theorem scriptMainFull_agrees_scriptMain (args : List String)
    (fs : String → FsOutcome) (fsOpt : String → Option (List Nat))
    (h : ∀ p, (fs p = FsOutcome.notFound ∧ fsOpt p = none) ∨
      ∃ c, fs p = FsOutcome.bytes c ∧ fsOpt p = some c) :
    scriptMainFull args fs = scriptMain args fsOpt := by
  rcases args with _ | ⟨path, _ | ⟨b, rest⟩⟩
  · rfl
  · rcases h path with ⟨h1, h2⟩ | ⟨c, h1, h2⟩ <;>
      simp only [scriptMainFull, print_u32_values_full, scriptMain,
        print_u32_values, h1, h2]
  · rfl

/-- Packing a 32-bit value little-endian and decoding it again is the
identity. -/
theorem leVal_u32le (v : Nat) (h : v < 4294967296) : leVal (u32le v) = v := by
  simp only [u32le, leVal, List.foldr_cons, List.foldr_nil]
  omega

/-- A packed 32-bit value occupies exactly 4 bytes. -/
theorem u32le_length (v : Nat) : (u32le v).length = 4 := by
  simp [u32le]

/-- Decoding the little-endian encoding of a pair sequence reproduces
exactly the original pairs, in order. -/
theorem decodeRecords_encodePairs (pairs : List (Nat × Nat))
    (h : ∀ p ∈ pairs, p.1 < 4294967296 ∧ p.2 < 4294967296) :
    decodeRecords (encodePairs pairs) =
      pairs.map (fun p => Out.record p.1 p.2) := by
  induction pairs with
  | nil =>
    simp only [encodePairs, List.flatMap_nil, List.map_nil]
    exact decodeRecords_nil
  | cons p rest ih =>
    obtain ⟨h1, h2⟩ := h p (List.mem_cons_self p rest)
    have hrest : ∀ q ∈ rest, q.1 < 4294967296 ∧ q.2 < 4294967296 :=
      fun q hq => h q (List.mem_cons_of_mem p hq)
    have henc : encodePairs (p :: rest) =
        (u32le p.1 ++ u32le p.2) ++ encodePairs rest := by
      simp [encodePairs, List.flatMap_cons, List.append_assoc]
    have hlen8 : (u32le p.1 ++ u32le p.2).length = 8 := by
      simp [List.length_append, u32le_length]
    rw [henc, decodeRecords]
    have hne : ¬ ((u32le p.1 ++ u32le p.2) ++ encodePairs rest) = [] := by
      intro he
      have hl := congrArg List.length he
      rw [List.length_append, hlen8] at hl
      simp at hl
    have htake : ((u32le p.1 ++ u32le p.2) ++ encodePairs rest).take 8 =
        u32le p.1 ++ u32le p.2 := List.take_left' hlen8
    have hdrop : ((u32le p.1 ++ u32le p.2) ++ encodePairs rest).drop 8 =
        encodePairs rest := List.drop_left' hlen8
    simp only [hne, if_false, htake, hdrop, hlen8, if_true]
    rw [List.take_left' (u32le_length p.1), List.drop_left' (u32le_length p.1)]
    rw [leVal_u32le p.1 h1, leVal_u32le p.2 h2, ih hrest, List.map_cons]

/-- C1: for every input file whose byte length is a multiple of 8, the
run prints exactly length/8 lines, and the k-th line is the pair of
little-endian unsigned 32-bit decodings of bytes [8k, 8k+4) and
[8k+4, 8k+8), in file order. -/
theorem C1_complete_records (path : String)
    (fs : String → Option (List Nat)) (contents : List Nat)
    (hfs : fs path = some contents)
    (hmul : contents.length % 8 = 0) :
    (scriptMain [path] fs).stdout =
      (List.range (contents.length / 8)).map (specRecordLine contents) := by
  show print_u32_values path fs = _
  rw [print_u32_values_spec path fs contents hfs]
  unfold specLines
  rw [if_pos hmul, List.append_nil]

/-- Witness for C1 at the 8-byte file 01 00 00 00 02 00 00 00. -/
theorem C1_complete_records_witness :
    ((fun _ : String => some [1, 0, 0, 0, 2, 0, 0, 0]) "a" =
      some [1, 0, 0, 0, 2, 0, 0, 0]) ∧
    (([1, 0, 0, 0, 2, 0, 0, 0] : List Nat).length % 8 = 0) ∧
    (scriptMain ["a"] (fun _ => some [1, 0, 0, 0, 2, 0, 0, 0])).stdout =
      (List.range (([1, 0, 0, 0, 2, 0, 0, 0] : List Nat).length / 8)).map
        (specRecordLine [1, 0, 0, 0, 2, 0, 0, 0]) :=
  ⟨rfl, by decide, C1_complete_records "a" _ _ rfl (by decide)⟩

/-- C2 counterexample: on the 5-byte file [1,2,3,4,5] the loop prints
the incomplete-chunk diagnostic and reaches its break within two
iterations, because the partial read advanced the file position past the
partial bytes, so the very next read is empty.  This refutes the claimed
non-termination. -/
theorem C2_counterexample :
    (loopRead [1, 2, 3, 4, 5] 0 2).halted = true ∧
    (loopRead [1, 2, 3, 4, 5] 0 2).lines =
      [Out.incomplete [1, 2, 3, 4, 5]] := by
  decide

/-- C2 amended: on a file whose length is not a multiple of 8, the loop
prints the diagnostic with the raw partial bytes as its last line and
continues, but the continuation immediately meets the terminating empty
read (the partial read advanced the cursor), so the loop terminates. -/
theorem C2_partial_chunk_terminates (contents : List Nat)
    (hmul : contents.length % 8 ≠ 0) :
    (loopRead contents 0 (contents.length + 1)).halted = true ∧
    (loopRead contents 0 (contents.length + 1)).lines.getLast? =
      some (Out.incomplete
        (contents.drop (8 * (contents.length / 8)))) := by
  rw [loopRead_eq_decode contents (contents.length + 1) 0 (by omega),
    List.drop_zero]
  refine ⟨rfl, ?_⟩
  show (decodeRecords contents).getLast? = _
  rw [decodeRecords_eq_specLines contents.length contents (le_refl _)]
  unfold specLines
  rw [if_neg hmul, List.getLast?_append]
  simp

/-- Witness for the amended C2 at the 5-byte file [1,2,3,4,5]. -/
theorem C2_partial_chunk_terminates_witness :
    (([1, 2, 3, 4, 5] : List Nat).length % 8 ≠ 0) ∧
    ((loopRead [1, 2, 3, 4, 5] 0
        (([1, 2, 3, 4, 5] : List Nat).length + 1)).halted = true ∧
      (loopRead [1, 2, 3, 4, 5] 0
        (([1, 2, 3, 4, 5] : List Nat).length + 1)).lines.getLast? =
        some (Out.incomplete (([1, 2, 3, 4, 5] : List Nat).drop
          (8 * (([1, 2, 3, 4, 5] : List Nat).length / 8))))) :=
  ⟨by decide, C2_partial_chunk_terminates [1, 2, 3, 4, 5] (by decide)⟩

/-- C3: encoding a sequence of (first, last) 32-bit pairs as 8-byte
little-endian records and running the reader on the result prints
exactly the original pairs in order. -/
theorem C3_roundtrip (path : String) (fs : String → Option (List Nat))
    (pairs : List (Nat × Nat))
    (hfs : fs path = some (encodePairs pairs))
    (hb : ∀ p ∈ pairs, p.1 < 4294967296 ∧ p.2 < 4294967296) :
    (scriptMain [path] fs).stdout =
      pairs.map (fun p => Out.record p.1 p.2) := by
  show print_u32_values path fs = _
  unfold print_u32_values
  rw [hfs]
  show (loopRead (encodePairs pairs) 0
    ((encodePairs pairs).length + 1)).lines = _
  rw [loopRead_eq_decode _ _ 0 (by omega), List.drop_zero]
  exact decodeRecords_encodePairs pairs hb

/-- Witness for C3 at the pair list [(1, 2), (4294967295, 0)]. -/
theorem C3_roundtrip_witness :
    ((fun _ : String => some (encodePairs [(1, 2), (4294967295, 0)])) "a" =
      some (encodePairs [(1, 2), (4294967295, 0)])) ∧
    (∀ p ∈ [((1 : Nat), (2 : Nat)), (4294967295, 0)],
      p.1 < 4294967296 ∧ p.2 < 4294967296) ∧
    (scriptMain ["a"]
        (fun _ => some (encodePairs [(1, 2), (4294967295, 0)]))).stdout =
      [((1 : Nat), (2 : Nat)), (4294967295, 0)].map
        (fun p => Out.record p.1 p.2) :=
  ⟨rfl, by decide, C3_roundtrip "a" _ _ rfl (by decide)⟩

/-- C4 counterexample: on a 5-byte file the script terminates, but it
exits with status 0 rather than the non-zero status the claim requires,
and its diagnostic carries only the leftover bytes. -/
theorem C4_counterexample :
    (scriptMain ["f"] (fun _ => some [1, 2, 3, 4, 5])).exitCode = 0 ∧
    (scriptMain ["f"] (fun _ => some [1, 2, 3, 4, 5])).stdout =
      [Out.incomplete [1, 2, 3, 4, 5]] := by
  exact ⟨rfl, by decide⟩

/-- C4 amended: on a file with a trailing chunk of 1-7 bytes the reader
prints the complete records followed by one diagnostic line containing
the leftover raw bytes (no byte offset), terminates the read loop, and
exits with status 0. -/
theorem C4_truncated_behavior (path : String)
    (fs : String → Option (List Nat)) (contents : List Nat)
    (hfs : fs path = some contents)
    (hmul : contents.length % 8 ≠ 0) :
    (scriptMain [path] fs).stdout =
      (List.range (contents.length / 8)).map (specRecordLine contents)
        ++ [Out.incomplete (contents.drop (8 * (contents.length / 8)))] ∧
    (scriptMain [path] fs).exitCode = 0 := by
  refine ⟨?_, rfl⟩
  show print_u32_values path fs = _
  rw [print_u32_values_spec path fs contents hfs]
  unfold specLines
  rw [if_neg hmul]

/-- Witness for the amended C4 at the 5-byte file [1,2,3,4,5]. -/
theorem C4_truncated_behavior_witness :
    ((fun _ : String => some [1, 2, 3, 4, 5]) "f" =
      some [1, 2, 3, 4, 5]) ∧
    (([1, 2, 3, 4, 5] : List Nat).length % 8 ≠ 0) ∧
    ((scriptMain ["f"] (fun _ => some [1, 2, 3, 4, 5])).stdout =
      (List.range (([1, 2, 3, 4, 5] : List Nat).length / 8)).map
          (specRecordLine [1, 2, 3, 4, 5])
        ++ [Out.incomplete (([1, 2, 3, 4, 5] : List Nat).drop
            (8 * (([1, 2, 3, 4, 5] : List Nat).length / 8)))] ∧
      (scriptMain ["f"] (fun _ => some [1, 2, 3, 4, 5])).exitCode = 0) :=
  ⟨rfl, by decide, C4_truncated_behavior "f" _ _ rfl (by decide)⟩

/-- C5 counterexample: on a nonexistent path the script prints the
not-found message but exits with status 0, refuting the claimed
non-zero exit status. -/
theorem C5_counterexample :
    (scriptMain ["nosuch.idx"] (fun _ => none)).exitCode = 0 ∧
    (scriptMain ["nosuch.idx"] (fun _ => none)).stdout =
      [Out.fileNotFound "nosuch.idx"] :=
  ⟨rfl, rfl⟩

/-- C5 amended: on a path that cannot be opened the script prints
exactly one message naming the path and no record lines, raises nothing,
and exits with status 0 (not non-zero). -/
theorem C5_not_found (path : String) (fs : String → Option (List Nat))
    (hfs : fs path = none) :
    (scriptMain [path] fs).stdout = [Out.fileNotFound path] ∧
    (scriptMain [path] fs).exitCode = 0 ∧
    (scriptMain [path] fs).uncaught = none := by
  refine ⟨?_, rfl, rfl⟩
  show print_u32_values path fs = _
  unfold print_u32_values
  rw [hfs]

/-- Witness for the amended C5 at a file system holding no files. -/
theorem C5_not_found_witness :
    ((fun _ : String => (none : Option (List Nat))) "gone.idx" = none) ∧
    ((scriptMain ["gone.idx"]
        (fun _ => (none : Option (List Nat)))).stdout =
      [Out.fileNotFound "gone.idx"] ∧
      (scriptMain ["gone.idx"]
        (fun _ => (none : Option (List Nat)))).exitCode = 0 ∧
      (scriptMain ["gone.idx"]
        (fun _ => (none : Option (List Nat)))).uncaught = none) :=
  ⟨rfl, C5_not_found "gone.idx" _ rfl⟩

/-- C6: with a wrong number of arguments the script evaluates
`os.path.basename(sys.argv[0])` on line 35 although `os` was never
imported, so a NameError escapes before the usage message of line 36 can
be printed; CPython exits with status 1 and no file access is attempted.
The documented intent (print usage, exit non-zero) is contradicted by
the missing import. -/
theorem C6_usage_namerror (args : List String)
    (fs : String → Option (List Nat)) (h : args.length ≠ 1) :
    (scriptMain args fs).uncaught = some "NameError" ∧
    (scriptMain args fs).stdout = [] ∧
    (scriptMain args fs).exitCode = 1 ∧
    (scriptMain args fs).fileAccessed = false := by
  rcases args with _ | ⟨a, _ | ⟨b, rest⟩⟩
  · exact ⟨rfl, rfl, rfl, rfl⟩
  · exact absurd rfl h
  · exact ⟨rfl, rfl, rfl, rfl⟩

/-- Witness for C6 at an invocation with no argument at all. -/
theorem C6_usage_namerror_witness :
    (([ ] : List String).length ≠ 1) ∧
    ((scriptMain [] (fun _ => some [])).uncaught = some "NameError" ∧
      (scriptMain [] (fun _ => some [])).stdout = [] ∧
      (scriptMain [] (fun _ => some [])).exitCode = 1 ∧
      (scriptMain [] (fun _ => some [])).fileAccessed = false) :=
  ⟨by decide, C6_usage_namerror [] _ (by decide)⟩

/-- C7 counterexample: with two arguments the NameError of the usage
branch escapes uncaught; with one argument naming a missing file the
exit status is 0, not a failure status; and with one argument naming an
unreadable file the PermissionError of `open` escapes uncaught.  So not
every error yields a handled single-line diagnostic plus a failure
exit. -/
theorem C7_counterexample :
    (scriptMain ["a", "b"] (fun _ => none)).uncaught =
      some "NameError" ∧
    (scriptMain ["gone"] (fun _ => none)).exitCode = 0 ∧
    (scriptMainFull ["locked"]
      (fun _ => FsOutcome.osError "PermissionError")).uncaught =
      some "PermissionError" :=
  ⟨rfl, rfl, rfl⟩

/-- C7 amended: errors are not all handled at the top level.  With one
argument, an exception escapes uncaught exactly when `open` raises an
OSError other than FileNotFoundError (PermissionError,
IsADirectoryError, ...), and the exit status is zero exactly when no
exception escapes — so the handled missing-file error exits with status
zero, not a failure status; with a wrong argument count the unimported
`os` raises an uncaught NameError and the interpreter exits 1. -/
theorem C7_error_policy (path : String) (fs : String → FsOutcome) :
    ((scriptMainFull [path] fs).exitCode = 0 ↔
      (scriptMainFull [path] fs).uncaught = none) ∧
    ((scriptMainFull [path] fs).uncaught = none ↔
      ∀ e, fs path ≠ FsOutcome.osError e) ∧
    ((scriptMainFull [] fs).uncaught = some "NameError" ∧
      (scriptMainFull [] fs).exitCode = 1) := by
  refine ⟨?_, ?_, rfl, rfl⟩
  · rcases hfp : fs path with c | _ | e <;>
      simp [scriptMainFull, print_u32_values_full, hfp]
  · rcases hfp : fs path with c | _ | e
    · simp [scriptMainFull, print_u32_values_full, hfp]
    · simp [scriptMainFull, print_u32_values_full, hfp]
    · simp only [scriptMainFull, print_u32_values_full, hfp]
      constructor
      · intro hnone
        exact absurd hnone (by simp)
      · intro hall
        exact absurd rfl (hall e)

/-- C8: on the empty file the script prints nothing and exits with
status 0. -/
theorem C8_empty_file (path : String) (fs : String → Option (List Nat))
    (hfs : fs path = some []) :
    (scriptMain [path] fs).stdout = [] ∧
    (scriptMain [path] fs).exitCode = 0 := by
  refine ⟨?_, rfl⟩
  show print_u32_values path fs = []
  rw [print_u32_values_spec path fs [] hfs]
  decide

/-- Witness for C8 at a file system mapping every path to the empty
file. -/
theorem C8_empty_file_witness :
    ((fun _ : String => some ([] : List Nat)) "e" = some []) ∧
    ((scriptMain ["e"] (fun _ => some ([] : List Nat))).stdout = [] ∧
      (scriptMain ["e"] (fun _ => some ([] : List Nat))).exitCode = 0) :=
  ⟨rfl, C8_empty_file "e" _ rfl⟩

/-- C9: on a file of any length n the record lines are exactly the
decodings of the first n / 8 complete records in order, followed by one
incomplete-chunk diagnostic exactly when n is not a multiple of 8; this
is the content of the formula `specLines`. -/
theorem C9_general_shape (path : String)
    (fs : String → Option (List Nat)) (contents : List Nat)
    (hfs : fs path = some contents) :
    (scriptMain [path] fs).stdout =
      (List.range (contents.length / 8)).map (specRecordLine contents)
        ++ (if contents.length % 8 = 0 then []
            else [Out.incomplete
              (contents.drop (8 * (contents.length / 8)))]) := by
  show print_u32_values path fs = _
  rw [print_u32_values_spec path fs contents hfs]
  rfl

/-- Witness for C9 at an 11-byte file: one complete record then a 3-byte
tail. -/
theorem C9_general_shape_witness :
    ((fun _ : String => some [9, 0, 0, 0, 7, 0, 0, 0, 11, 22, 33]) "x" =
      some [9, 0, 0, 0, 7, 0, 0, 0, 11, 22, 33]) ∧
    (scriptMain ["x"]
        (fun _ => some [9, 0, 0, 0, 7, 0, 0, 0, 11, 22, 33])).stdout =
      (List.range (([9, 0, 0, 0, 7, 0, 0, 0, 11, 22, 33] :
          List Nat).length / 8)).map
          (specRecordLine [9, 0, 0, 0, 7, 0, 0, 0, 11, 22, 33])
        ++ (if ([9, 0, 0, 0, 7, 0, 0, 0, 11, 22, 33] :
              List Nat).length % 8 = 0 then []
            else [Out.incomplete
              (([9, 0, 0, 0, 7, 0, 0, 0, 11, 22, 33] : List Nat).drop
                (8 * (([9, 0, 0, 0, 7, 0, 0, 0, 11, 22, 33] :
                  List Nat).length / 8)))]) :=
  ⟨rfl, C9_general_shape "x" _ _ rfl⟩

/-- C10: the run result is a function of the path string and the bytes
bound to that path alone: two file systems agreeing on the path give
identical results. -/
theorem C10_deterministic (path : String)
    (fs1 fs2 : String → Option (List Nat))
    (h : fs1 path = fs2 path) :
    scriptMain [path] fs1 = scriptMain [path] fs2 := by
  have hp : print_u32_values path fs1 = print_u32_values path fs2 := by
    unfold print_u32_values
    rw [h]
  show RunResult.mk (print_u32_values path fs1) 0 none true =
    RunResult.mk (print_u32_values path fs2) 0 none true
  rw [hp]

/-- Witness for C10: the two file systems agree on the queried path and
differ elsewhere. -/
theorem C10_deterministic_witness :
    ((fun _ : String => some ([] : List Nat)) "a" =
      (fun p : String => if p = "a" then some [] else none) "a") ∧
    scriptMain ["a"] (fun _ => some ([] : List Nat)) =
      scriptMain ["a"] (fun p => if p = "a" then some [] else none) :=
  ⟨by decide, C10_deterministic "a" _ _ (by decide)⟩

end PrintIdxFile
